import Mathlib

/-!
Verification development for the nbtrs repository (NBT binary decoder,
Taglike accessor layer, and region-file container).

The embedding translates `src/nbt.rs`, `src/error.rs` and `src/region.rs`
into Lean.  Conventions:

* Bytes are `Nat` values below 256; a byte source is a `List Nat` read from
  the front.  Rust `String` is UTF-8 bytes under the hood, so strings are
  represented as their byte lists, with `isValidUtf8` playing the role of
  `String::from_utf8` validation.
* Machine integers are `Nat`/`Int` with explicit `% 2^w` where overflow
  matters (two's-complement wrap-around semantics of release builds).
* Signed scalar tags (`i8`/`i16`/`i32`/`i64`) carry the mathematical
  integer obtained by two's-complement interpretation of the read bytes.
* `f32`/`f64` tags carry the raw big-endian bit pattern as a `Nat`; the
  decoder never performs floating-point arithmetic, so this is lossless.
* Rust functions that can panic (assertion failures, `.unwrap()`, index
  out of bounds, arithmetic underflow aborts) are modelled in the
  `Outcome` type whose `panic` constructor marks process aborts.
* The recursive-descent parser's recursion is not structural on the byte
  stream (a list element of type id 0 consumes no input), so the Lean
  functions take an explicit `fuel` bound; `Error.fuelExhausted` is an
  artifact of this embedding and corresponds to no Rust behaviour.  All
  theorems are stated for fuel values large enough that it never fires.
-/

/-- Big-endian recombination of two bytes (`byteorder::read_u16`). -/
def be16 (a b : Nat) : Nat := a * 256 + b

/-- Big-endian recombination of four bytes (`byteorder::read_u32`). -/
def be32 (a b c d : Nat) : Nat := ((a * 256 + b) * 256 + c) * 256 + d

/-- Big-endian recombination of eight bytes (`byteorder::read_u64`). -/
def be64 (a b c d e f g h : Nat) : Nat :=
  ((((((a * 256 + b) * 256 + c) * 256 + d) * 256 + e) * 256 + f) * 256 + g) * 256 + h

/-- Two's-complement reading of a `u8` bit pattern as an `i8`. -/
def toI8 (b : Nat) : Int := if b < 128 then (b : Int) else (b : Int) - 256

/-- Two's-complement reading of a `u16` bit pattern as an `i16`. -/
def toI16 (n : Nat) : Int := if n < 32768 then (n : Int) else (n : Int) - 65536

/-- Two's-complement reading of a `u32` bit pattern as an `i32`. -/
def toI32 (n : Nat) : Int := if n < 2147483648 then (n : Int) else (n : Int) - 4294967296

/-- Two's-complement reading of a `u64` bit pattern as an `i64`. -/
def toI64 (n : Nat) : Int :=
  if n < 9223372036854775808 then (n : Int) else (n : Int) - 18446744073709551616

/--
The error enum of `src/error.rs`.  Payloads of foreign types
(`io::Error`, `FromUtf8Error`) are dropped.  The constructor
`unsupportedCompressionFormat` is referenced by `src/region.rs` but its
declaration is absent from the provided `error.rs`; it is modelled from
the spec ("fails with an unsupported-format error naming the code").
`fuelExhausted` is an artifact of the fuelled embedding (see module
comment) and corresponds to no source construct.
-/
inductive Error where
  | ioErr : Error
  | badEncoding : Error
  | unexpectedEOF : Error
  | unexpectedTag : Nat → Error
  | unexpectedType : Error
  | invalidKey : List Nat → Error
  | invalidIndex : Nat → Error
  | unsupportedCompressionFormat : Nat → Error
  | fuelExhausted : Error
deriving DecidableEq, Repr

/-- `byteorder` `read_u8`: one byte, or `UnexpectedEOF`. -/
def readU8 : List Nat → Except Error (Nat × List Nat)
  | [] => .error .unexpectedEOF
  | b :: r => .ok (b, r)

/-- `byteorder` `read_u16::<BigEndian>`. -/
def readU16 : List Nat → Except Error (Nat × List Nat)
  | a :: b :: r => .ok (be16 a b, r)
  | _ => .error .unexpectedEOF

/-- `byteorder` `read_u32::<BigEndian>`. -/
def readU32 : List Nat → Except Error (Nat × List Nat)
  | a :: b :: c :: d :: r => .ok (be32 a b c d, r)
  | _ => .error .unexpectedEOF

/-- `byteorder` `read_u64::<BigEndian>`. -/
def readU64 : List Nat → Except Error (Nat × List Nat)
  | a :: b :: c :: d :: e :: f :: g :: h :: r => .ok (be64 a b c d e f g h, r)
  | _ => .error .unexpectedEOF

/-- `byteorder` `read_i8` (byte reinterpreted as two's complement). -/
def readI8 (r : List Nat) : Except Error (Int × List Nat) :=
  (readU8 r).map fun (b, r') => (toI8 b, r')

/-- `byteorder` `read_i16::<BigEndian>`. -/
def readI16 (r : List Nat) : Except Error (Int × List Nat) :=
  (readU16 r).map fun (n, r') => (toI16 n, r')

/-- `byteorder` `read_i32::<BigEndian>`. -/
def readI32 (r : List Nat) : Except Error (Int × List Nat) :=
  (readU32 r).map fun (n, r') => (toI32 n, r')

/-- `byteorder` `read_i64::<BigEndian>`. -/
def readI64 (r : List Nat) : Except Error (Int × List Nat) :=
  (readU64 r).map fun (n, r') => (toI64 n, r')

/--
`std::io::Read::read_exact` into a buffer of length `n`: delivers exactly
`n` bytes or fails with an `io::Error` (`Error::Io` after conversion).
-/
def readExact (n : Nat) (l : List Nat) : Except Error (List Nat × List Nat) :=
  if n ≤ l.length then .ok (l.take n, l.drop n) else .error .ioErr

/--
UTF-8 validity of a byte sequence, exactly as checked by Rust's
`String::from_utf8`: ASCII, and 2/3/4-byte sequences with the standard
continuation-byte ranges, rejecting overlong forms, surrogates and
code points above U+10FFFF.
-/
def isValidUtf8 : List Nat → Bool
  | [] => true
  | b :: rest =>
    if b ≤ 0x7F then isValidUtf8 rest
    else if 0xC2 ≤ b ∧ b ≤ 0xDF then
      match rest with
      | c1 :: r => (0x80 ≤ c1 && c1 ≤ 0xBF) && isValidUtf8 r
      | [] => false
    else if b = 0xE0 then
      match rest with
      | c1 :: c2 :: r => (0xA0 ≤ c1 && c1 ≤ 0xBF) && (0x80 ≤ c2 && c2 ≤ 0xBF) && isValidUtf8 r
      | _ => false
    else if (0xE1 ≤ b ∧ b ≤ 0xEC) ∨ b = 0xEE ∨ b = 0xEF then
      match rest with
      | c1 :: c2 :: r => (0x80 ≤ c1 && c1 ≤ 0xBF) && (0x80 ≤ c2 && c2 ≤ 0xBF) && isValidUtf8 r
      | _ => false
    else if b = 0xED then
      match rest with
      | c1 :: c2 :: r => (0x80 ≤ c1 && c1 ≤ 0x9F) && (0x80 ≤ c2 && c2 ≤ 0xBF) && isValidUtf8 r
      | _ => false
    else if b = 0xF0 then
      match rest with
      | c1 :: c2 :: c3 :: r =>
        (0x90 ≤ c1 && c1 ≤ 0xBF) && (0x80 ≤ c2 && c2 ≤ 0xBF) &&
          (0x80 ≤ c3 && c3 ≤ 0xBF) && isValidUtf8 r
      | _ => false
    else if 0xF1 ≤ b ∧ b ≤ 0xF3 then
      match rest with
      | c1 :: c2 :: c3 :: r =>
        (0x80 ≤ c1 && c1 ≤ 0xBF) && (0x80 ≤ c2 && c2 ≤ 0xBF) &&
          (0x80 ≤ c3 && c3 ≤ 0xBF) && isValidUtf8 r
      | _ => false
    else if b = 0xF4 then
      match rest with
      | c1 :: c2 :: c3 :: r =>
        (0x80 ≤ c1 && c1 ≤ 0x8F) && (0x80 ≤ c2 && c2 ≤ 0xBF) &&
          (0x80 ≤ c3 && c3 ≤ 0xBF) && isValidUtf8 r
      | _ => false
    else false

/-- `String::from_utf8`: the bytes themselves on success (strings are
their UTF-8 bytes), `Error::BadEncoding` otherwise. -/
def fromUtf8 (bs : List Nat) : Except Error (List Nat) :=
  if isValidUtf8 bs then .ok bs else .error .badEncoding

/-- `Tag::read_string` (src/nbt.rs): 2-byte big-endian length, exactly
that many bytes, UTF-8 validation, no byte filtering. -/
def read_string (r : List Nat) : Except Error (List Nat × List Nat) := do
  let (len, r1) ← readU16 r
  let (buf, r2) ← readExact len r1
  let s ← fromUtf8 buf
  .ok (s, r2)

/--
The `Tag` enum of `src/nbt.rs`.  `TagCompound`'s `HashMap<String, Tag>`
is modelled as an association list managed exclusively through
`hmInsert`/`hmGet` below, which reproduce `HashMap::insert` (overwrite on
equal key) and `HashMap::get`.  `TagIntArray`/`TagLongArray` hold the
`u32`/`u64` values the parser reads.  Float payloads are the raw IEEE bit
patterns (see module comment).
-/
inductive Tag where
  | TagEnd : Tag
  | TagByte : Int → Tag
  | TagShort : Int → Tag
  | TagInt : Int → Tag
  | TagLong : Int → Tag
  | TagFloat : Nat → Tag
  | TagDouble : Nat → Tag
  | TagByteArray : List Nat → Tag
  | TagString : List Nat → Tag
  | TagList : List Tag → Tag
  | TagCompound : List (List Nat × Tag) → Tag
  | TagIntArray : List Nat → Tag
  | TagLongArray : List Nat → Tag

/-- `HashMap::insert`: overwrite the binding of an existing key, append a
fresh one otherwise. -/
def hmInsert (m : List (List Nat × Tag)) (k : List Nat) (v : Tag) :
    List (List Nat × Tag) :=
  match m with
  | [] => [(k, v)]
  | (k', v') :: rest => if k' = k then (k, v) :: rest else (k', v') :: hmInsert rest k v

/-- `HashMap::get`. -/
def hmGet (m : List (List Nat × Tag)) (k : List Nat) : Option Tag :=
  match m with
  | [] => none
  | (k', v') :: rest => if k' = k then some v' else hmGet rest k

/-- Element-count loop of the `TAG_IntArray` arm: that many `u32` reads. -/
def readU32n : Nat → List Nat → Except Error (List Nat × List Nat)
  | 0, r => .ok ([], r)
  | n + 1, r => do
    let (v, r1) ← readU32 r
    let (vs, r2) ← readU32n n r1
    .ok (v :: vs, r2)

/-- Element-count loop of the `TAG_LongArray` arm: that many `u64` reads. -/
def readU64n : Nat → List Nat → Except Error (List Nat × List Nat)
  | 0, r => .ok ([], r)
  | n + 1, r => do
    let (v, r1) ← readU64 r
    let (vs, r2) ← readU64n n r1
    .ok (v :: vs, r2)

mutual

/--
`Tag::parse_tag` (src/nbt.rs): dispatch on the type id (read from the
stream when `tagType` is `none`, the supplied one otherwise); ids 0-12
produce the corresponding variant, any other id fails with
`UnexpectedTag`.  `fuel` bounds recursion depth (see module comment).
-/
def parse_tag : Nat → List Nat → Option Nat → Except Error (Tag × List Nat)
  | 0, _, _ => .error .fuelExhausted
  | fuel + 1, r, tagType => do
    let (ty, r0) ← match tagType with
      | some t => (.ok (t, r) : Except Error (Nat × List Nat))
      | none => readU8 r
    match ty with
    | 0 => .ok (.TagEnd, r0)
    | 1 => do
      let (v, r1) ← readI8 r0
      .ok (.TagByte v, r1)
    | 2 => do
      let (v, r1) ← readI16 r0
      .ok (.TagShort v, r1)
    | 3 => do
      let (v, r1) ← readI32 r0
      .ok (.TagInt v, r1)
    | 4 => do
      let (v, r1) ← readI64 r0
      .ok (.TagLong v, r1)
    | 5 => do
      let (v, r1) ← readU32 r0
      .ok (.TagFloat v, r1)
    | 6 => do
      let (v, r1) ← readU64 r0
      .ok (.TagDouble v, r1)
    | 7 => do
      let (len, r1) ← readU32 r0
      let (buf, r2) ← readExact len r1
      .ok (.TagByteArray buf, r2)
    | 8 => do
      let (s, r1) ← read_string r0
      .ok (.TagString s, r1)
    | 9 => do
      let (ety, r1) ← readU8 r0
      let (len, r2) ← readU32 r1
      let (v, r3) ← parseListElems fuel len ety r2
      .ok (.TagList v, r3)
    | 10 => do
      let (m, r1) ← parseCompoundEntries fuel r0 []
      .ok (.TagCompound m, r1)
    | 11 => do
      let (len, r1) ← readU32 r0
      let (v, r2) ← readU32n len r1
      .ok (.TagIntArray v, r2)
    | 12 => do
      let (len, r1) ← readU32 r0
      let (v, r2) ← readU64n len r1
      .ok (.TagLongArray v, r2)
    | x => .error (.unexpectedTag x)

/--
The `TAG_List` element loop of `Tag::parse_tag`: decode `n` elements,
each with the type id fixed to the list's element type id `ety`.
-/
def parseListElems : Nat → Nat → Nat → List Nat → Except Error (List Tag × List Nat)
  | _, 0, _, r => .ok ([], r)
  | 0, _ + 1, _, _ => .error .fuelExhausted
  | fuel + 1, n + 1, ety, r => do
    let (t, r1) ← parse_tag fuel r (some ety)
    let (ts, r2) ← parseListElems fuel n ety r1
    .ok (t :: ts, r2)

/--
The `TAG_Compound` entry loop of `Tag::parse_tag`: read a type id byte;
id 0 ends the compound (the `End` marker is consumed, not stored);
otherwise read a key string and a value of that type and insert the pair,
overwriting any previous binding of the key.
-/
def parseCompoundEntries : Nat → List Nat → List (List Nat × Tag) →
    Except Error (List (List Nat × Tag) × List Nat)
  | 0, _, _ => .error .fuelExhausted
  | fuel + 1, r, m => do
    let (ty, r1) ← readU8 r
    if ty = 0 then .ok (m, r1)
    else do
      let (k, r2) ← read_string r1
      let (v, r3) ← parse_tag fuel r2 (some ty)
      parseCompoundEntries fuel r3 (hmInsert m k v)

end

/--
`Tag::parse` (src/nbt.rs), the root decode: one type-id byte, the root
name string, then the tree with the type fixed to that id.  The remaining
stream is returned as well (it is the state of the Rust reader).
-/
def Tag.parse (fuel : Nat) (r : List Nat) :
    Except Error ((List Nat × Tag) × List Nat) := do
  let (ty, r1) ← readU8 r
  let (name, r2) ← read_string r1
  let (tag, r3) ← parse_tag fuel r2 (some ty)
  .ok ((name, tag), r3)

/-- `Taglike::as_i8` as implemented for `&Tag` (simple_getter). -/
def Tag.as_i8 : Tag → Option Int
  | .TagByte v => some v
  | _ => none

/-- `Taglike::as_i16` for `&Tag`. -/
def Tag.as_i16 : Tag → Option Int
  | .TagShort v => some v
  | _ => none

/-- `Taglike::as_i32` for `&Tag`. -/
def Tag.as_i32 : Tag → Option Int
  | .TagInt v => some v
  | _ => none

/-- `Taglike::as_i64` for `&Tag`. -/
def Tag.as_i64 : Tag → Option Int
  | .TagLong v => some v
  | _ => none

/-- `Taglike::as_f32` for `&Tag` (IEEE bit pattern, see module comment). -/
def Tag.as_f32 : Tag → Option Nat
  | .TagFloat v => some v
  | _ => none

/-- `Taglike::as_f64` for `&Tag` (IEEE bit pattern). -/
def Tag.as_f64 : Tag → Option Nat
  | .TagDouble v => some v
  | _ => none

/-- `Taglike::as_bytes` for `&Tag`. -/
def Tag.as_bytes : Tag → Option (List Nat)
  | .TagByteArray v => some v
  | _ => none

/-- `Taglike::as_string` for `&Tag`. -/
def Tag.as_string : Tag → Option (List Nat)
  | .TagString v => some v
  | _ => none

/-- `Taglike::as_list` for `&Tag`. -/
def Tag.as_list : Tag → Option (List Tag)
  | .TagList v => some v
  | _ => none

/-- `Taglike::as_map` for `&Tag`. -/
def Tag.as_map : Tag → Option (List (List Nat × Tag))
  | .TagCompound m => some m
  | _ => none

/-- `Taglike::index`: `self.as_list().and_then(|v| v.get(index))`. -/
def Tag.index (t : Tag) (i : Nat) : Option Tag :=
  t.as_list.bind fun v => v.get? i

/-- `Taglike::key`: `self.as_map().and_then(|m| m.get(key))`. -/
def Tag.key (t : Tag) (k : List Nat) : Option Tag :=
  t.as_map.bind fun m => hmGet m k

/--
Result of running a Rust function that may return normally, return an
error, or abort the process (assertion failure, `.unwrap()` on `Err`,
arithmetic-overflow panic / allocation abort).
-/
inductive Outcome (α : Type) where
  | ok : α → Outcome α
  | err : Error → Outcome α
  | panic : Outcome α
deriving DecidableEq, Repr

/--
`RegionFile<T>` (src/region.rs).  `cursor` holds the full underlying byte
source; the read position is not stored because every operation that
touches it starts with `seek(SeekFrom::Start(..))`.
-/
structure RegionFile where
  offsets : List Nat
  timestamps : List Nat
  chunk_size : List Nat
  cursor : List Nat

/-- The header loops of `RegionFile::new`: `n` big-endian `u32` reads. -/
def readU32s : Nat → List Nat → Except Error (List Nat × List Nat)
  | 0, r => .ok ([], r)
  | n + 1, r => do
    let (v, r1) ← readU32 r
    let (vs, r2) ← readU32s n r1
    .ok (v :: vs, r2)

/--
`RegionFile::new`: 1024 offset words (upper 3 bytes = sector offset,
stored multiplied by 4096 in wrapping `u32` arithmetic; low byte = sector
count), then 1024 timestamps.
-/
def RegionFile.new (r : List Nat) : Except Error RegionFile := do
  let (words, r1) ← readU32s 1024 r
  let (tss, _) ← readU32s 1024 r1
  .ok { offsets := words.map fun v => v / 256 * 4096 % 4294967296
        timestamps := tss
        chunk_size := words.map fun v => v % 256
        cursor := r }

/--
`RegionFile::get_chunk_timestamp`: asserts `x < 32` and `z < 32`
(a panic when violated), then looks up slot `x%32 + (z%32)*32`, mapping a
zero timestamp to `None`.
-/
def RegionFile.get_chunk_timestamp (rf : RegionFile) (x z : Nat) : Outcome (Option Nat) :=
  if x < 32 then
    if z < 32 then
      let idx := x % 32 + z % 32 * 32
      .ok ((rf.timestamps.get? idx).bind fun ts => if ts = 0 then none else some ts)
    else .panic
  else .panic

/--
`RegionFile::get_chunk_offset`: asserts the bounds (panic when violated)
and indexes `offsets` directly (`self.offsets[idx]`, a panic when out of
range, which cannot happen for a successfully constructed file).
-/
def RegionFile.get_chunk_offset (rf : RegionFile) (x z : Nat) : Outcome Nat :=
  if x < 32 then
    if z < 32 then
      match rf.offsets.get? (x % 32 + z % 32 * 32) with
      | some o => .ok o
      | none => .panic
    else .panic
  else .panic

/-- `RegionFile::chunk_exists`: asserts the bounds (panic when violated),
then `offsets.get(idx).map_or(false, |v| *v > 0)`. -/
def RegionFile.chunk_exists (rf : RegionFile) (x z : Nat) : Outcome Bool :=
  if x < 32 then
    if z < 32 then
      .ok ((rf.offsets.get? (x % 32 + z % 32 * 32)).elim false fun v => 0 < v)
    else .panic
  else .panic

/--
`RegionFile::load_chunk`.  `zlib` is the external flate2 decompressor
(out of scope per the spec), abstracted as a function from the compressed
bytes to the full decompressed stream, `none` meaning the compressed data
is corrupt; in that case `Tag::parse` reading through the decoder fails
with an I/O error and the `.unwrap()` turns it into a panic, so the model
goes directly to `panic`.  Steps: seek to the slot's byte offset, read a
4-byte length and 1 compression-type byte; a type other than 2 is an
`UnsupportedCompressionFormat` error; `vec![0; total_len - 1]` aborts
when `total_len = 0` (debug: subtraction overflow panic; release: the
wrapped length makes allocation abort); then read the payload,
decompress, parse, and return the tag, discarding the root name.  The
`.unwrap()` on `Tag::parse` turns any decode failure into a panic.
-/
def RegionFile.load_chunk (zlib : List Nat → Option (List Nat)) (fuel : Nat)
    (rf : RegionFile) (x z : Nat) : Outcome Tag :=
  match rf.get_chunk_offset x z with
  | .panic => .panic
  | .err e => .err e
  | .ok offset =>
    match readU32 (rf.cursor.drop offset) with
    | .error e => .err e
    | .ok (total_len, t1) =>
      match readU8 t1 with
      | .error e => .err e
      | .ok (compression_type, t2) =>
        if compression_type ≠ 2 then
          .err (.unsupportedCompressionFormat compression_type)
        else if total_len = 0 then .panic
        else
          match readExact (total_len - 1) t2 with
          | .error e => .err e
          | .ok (compressed_data, _) =>
            match zlib compressed_data with
            | none => .panic
            | some plain =>
              match Tag.parse fuel plain with
              | .error _ => .panic
              | .ok ((_, tag), _) => .ok tag

theorem hmGet_hmInsert (m : List (List Nat × Tag)) (k : List Nat) (v : Tag) :
    hmGet (hmInsert m k v) k = some v := by
  induction m with
  | nil => simp [hmInsert, hmGet]
  | cons hd tl ih =>
    obtain ⟨k', v'⟩ := hd
    by_cases h : k' = k
    · simp [hmInsert, hmGet, h]
    · simp [hmInsert, hmGet, h, ih]

theorem parseCompoundEntries_end (fuel : Nat) (r : List Nat) (m : List (List Nat × Tag)) :
    parseCompoundEntries (fuel + 1) (0 :: r) m = .ok (m, r) := by
  simp [parseCompoundEntries, readU8, Bind.bind, Except.bind]

theorem parseCompoundEntries_step (fuel ty : Nat) (r : List Nat)
    (m : List (List Nat × Tag)) (hty : ty ≠ 0) :
    parseCompoundEntries (fuel + 1) (ty :: r) m =
      (do
        let (k, r2) ← read_string r
        let (v, r3) ← parse_tag fuel r2 (some ty)
        parseCompoundEntries fuel r3 (hmInsert m k v)) := by
  simp [parseCompoundEntries, readU8, Bind.bind, Except.bind, hty]

theorem parseListElems_zero (fuel ety : Nat) (r : List Nat) :
    parseListElems fuel 0 ety r = .ok ([], r) := by
  cases fuel <;> simp [parseListElems]

theorem parseListElems_step (fuel n ety : Nat) (r : List Nat) :
    parseListElems (fuel + 1) (n + 1) ety r =
      (do
        let (t, r1) ← parse_tag fuel r (some ety)
        let (ts, r2) ← parseListElems fuel n ety r1
        .ok (t :: ts, r2)) := by
  simp [parseListElems]

theorem parseListElems_length (n : Nat) :
    ∀ fuel ety (r r' : List Nat) (v : List Tag),
      parseListElems fuel n ety r = .ok (v, r') → v.length = n := by
  induction n with
  | zero =>
    intro fuel ety r r' v h
    rw [parseListElems_zero] at h
    simp at h
    simp [h.1]
  | succ n ih =>
    intro fuel ety r r' v h
    match fuel with
    | 0 => simp [parseListElems] at h
    | fuel + 1 =>
      rw [parseListElems_step] at h
      simp only [Bind.bind] at h
      cases h1 : parse_tag fuel r (some ety) with
      | error e => simp [h1, Except.bind] at h
      | ok p =>
        obtain ⟨t, r1⟩ := p
        cases h2 : parseListElems fuel n ety r1 with
        | error e => simp [h1, h2, Except.bind] at h
        | ok q =>
          obtain ⟨ts, r2⟩ := q
          simp [h1, h2, Except.bind] at h
          obtain ⟨hv, -⟩ := h
          subst hv
          simp [ih fuel ety r1 r2 ts h2]

theorem parse_tag_list_header (fuel ety b1 b2 b3 b4 : Nat) (r : List Nat) :
    parse_tag (fuel + 1) (ety :: b1 :: b2 :: b3 :: b4 :: r) (some 9) =
      Except.map (fun p => (Tag.TagList p.1, p.2))
        (parseListElems fuel (be32 b1 b2 b3 b4) ety r) := by
  cases h : parseListElems fuel (be32 b1 b2 b3 b4) ety r <;>
    simp [parse_tag, readU8, readU32, Bind.bind, Except.bind, Except.map, h]

/--
C6: decoding a Compound stores exactly the (key, value) entries read
before the first type-id-0 byte (first conjunct: an End id stops the loop
returning the entries accumulated so far, consuming the End byte without
storing any value; second conjunct: a non-End id reads one key and one
value and continues with the pair inserted); insertion overwrites any
earlier binding of the same key, so a duplicated key keeps only the
later-occurring value (third conjunct, and the fourth evaluates a
concrete stream with key "a" bound to 1 and then to 2, decoding to a
one-entry compound holding 2).
-/
theorem compound_decode_last_write_wins (fuel ty : Nat) (r : List Nat)
    (m : List (List Nat × Tag)) (k : List Nat) (v : Tag) (hty : ty ≠ 0) :
    parseCompoundEntries (fuel + 1) (0 :: r) m = .ok (m, r)
    ∧ parseCompoundEntries (fuel + 1) (ty :: r) m =
        (do
          let (k', r2) ← read_string r
          let (v', r3) ← parse_tag fuel r2 (some ty)
          parseCompoundEntries fuel r3 (hmInsert m k' v'))
    ∧ hmGet (hmInsert m k v) k = some v
    ∧ Tag.parse 20 [10, 0, 0, 1, 0, 1, 97, 1, 1, 0, 1, 97, 2, 0] =
        .ok (([], .TagCompound [([97], .TagByte 2)]), []) :=
  ⟨parseCompoundEntries_end fuel r m,
   parseCompoundEntries_step fuel ty r m hty,
   hmGet_hmInsert m k v,
   by rfl⟩

/-- Witness for C6 at a concrete compound state and duplicate key. -/
theorem compound_decode_last_write_wins_witness :
    parseCompoundEntries 4 (0 :: [5, 5]) [([97], Tag.TagByte 1)] =
      .ok ([([97], Tag.TagByte 1)], [5, 5])
    ∧ hmGet (hmInsert [([97], Tag.TagByte 1)] [97] (Tag.TagByte 2)) [97] =
        some (Tag.TagByte 2) :=
  ⟨(compound_decode_last_write_wins 3 1 [5, 5] [([97], Tag.TagByte 1)] [97]
      (Tag.TagByte 2) (by decide)).1,
   (compound_decode_last_write_wins 3 1 [5, 5] [([97], Tag.TagByte 1)] [97]
      (Tag.TagByte 2) (by decide)).2.2.1⟩

/--
C7: decoding a List reads one element-type-id byte and a 4-byte
big-endian count (first conjunct), decodes each element with the type id
fixed to that element type id, never re-read per element (second
conjunct, where the recursive element call carries `some ety`), a zero
count consumes the element type id byte and yields an empty List (third
conjunct), and exactly `count` elements are decoded (fourth conjunct).
-/
theorem list_decode_fixed_type_and_count (fuel n ety b1 b2 b3 b4 : Nat)
    (r r' : List Nat) (v : List Tag)
    (hok : parseListElems fuel n ety r = .ok (v, r')) :
    parse_tag (fuel + 1) (ety :: b1 :: b2 :: b3 :: b4 :: r) (some 9) =
      Except.map (fun p => (Tag.TagList p.1, p.2))
        (parseListElems fuel (be32 b1 b2 b3 b4) ety r)
    ∧ parseListElems (fuel + 1) (n + 1) ety r =
        (do
          let (t, r1) ← parse_tag fuel r (some ety)
          let (ts, r2) ← parseListElems fuel n ety r1
          .ok (t :: ts, r2))
    ∧ parse_tag (fuel + 1) (ety :: 0 :: 0 :: 0 :: 0 :: r) (some 9) = .ok (.TagList [], r)
    ∧ v.length = n := by
  refine ⟨parse_tag_list_header fuel ety b1 b2 b3 b4 r,
    parseListElems_step fuel n ety r, ?_,
    parseListElems_length n fuel ety r r' v hok⟩
  have h3 := parse_tag_list_header fuel ety 0 0 0 0 r
  rw [show be32 0 0 0 0 = 0 from rfl, parseListElems_zero] at h3
  simpa [Except.map] using h3

/-- Witness for C7 on the byte list `1, 2, 3` of the repository's own
list test vector. -/
theorem list_decode_fixed_type_and_count_witness :
    parse_tag 6 (1 :: 0 :: 0 :: 0 :: 0 :: [1, 2, 3]) (some 9) = .ok (.TagList [], [1, 2, 3])
    ∧ [Tag.TagByte 1, Tag.TagByte 2, Tag.TagByte 3].length = 3 :=
  ⟨(list_decode_fixed_type_and_count 5 3 1 0 0 0 0 [1, 2, 3] []
      [Tag.TagByte 1, Tag.TagByte 2, Tag.TagByte 3] (by rfl)).2.2.1,
   (list_decode_fixed_type_and_count 5 3 1 0 0 0 0 [1, 2, 3] []
      [Tag.TagByte 1, Tag.TagByte 2, Tag.TagByte 3] (by rfl)).2.2.2⟩

/--
C8: decoding a String reads a 2-byte big-endian length, then exactly that
many bytes, and validates them as UTF-8 with no byte filtered out: on
valid UTF-8 the result is exactly those bytes (first conjunct), on
invalid UTF-8 the decode fails with the encoding error (second conjunct);
the `TAG_String` parser arm is exactly this read (third conjunct), and a
string containing an embedded zero byte keeps it (fourth conjunct).
-/
theorem string_decode_exact_bytes (fuel b1 b2 : Nat) (rest : List Nat)
    (hlen : be16 b1 b2 ≤ rest.length) :
    (isValidUtf8 (rest.take (be16 b1 b2)) = true →
      read_string (b1 :: b2 :: rest) =
        .ok (rest.take (be16 b1 b2), rest.drop (be16 b1 b2)))
    ∧ (isValidUtf8 (rest.take (be16 b1 b2)) = false →
      read_string (b1 :: b2 :: rest) = .error .badEncoding)
    ∧ parse_tag (fuel + 1) (b1 :: b2 :: rest) (some 8) =
        Except.map (fun p => (Tag.TagString p.1, p.2)) (read_string (b1 :: b2 :: rest))
    ∧ read_string [0, 3, 97, 0, 98] = .ok ([97, 0, 98], []) := by
  refine ⟨?_, ?_, ?_, by rfl⟩
  · intro h
    simp [read_string, readU16, readExact, hlen, fromUtf8, h, Bind.bind, Except.bind]
  · intro h
    simp [read_string, readU16, readExact, hlen, fromUtf8, h, Bind.bind, Except.bind]
  · cases h : read_string (b1 :: b2 :: rest) <;>
      simp [parse_tag, Bind.bind, Except.bind, Except.map, h]

/-- Witness for C8: length 3, payload `97, 0, 98` (embedded zero byte). -/
theorem string_decode_exact_bytes_witness :
    read_string (0 :: 3 :: [97, 0, 98]) = .ok ([97, 0, 98], [])
    ∧ parse_tag 1 (0 :: 3 :: [97, 0, 98]) (some 8) =
        Except.map (fun p => (Tag.TagString p.1, p.2)) (read_string (0 :: 3 :: [97, 0, 98])) :=
  ⟨(string_decode_exact_bytes 0 0 3 [97, 0, 98] (by decide)).1 (by rfl),
   (string_decode_exact_bytes 0 0 3 [97, 0, 98] (by decide)).2.2.1⟩

/-- Two's-complement `u8` bit pattern of an `i8` value (encoder side of
the round-trip property; the repository has no writer, so this is the
inverse of `toI8` used to quantify over all valid encoded scalars). -/
def toU8 (v : Int) : Nat := (v % 256).toNat

/-- Two's-complement `u16` bit pattern of an `i16` value. -/
def toU16 (v : Int) : Nat := (v % 65536).toNat

/-- Two's-complement `u32` bit pattern of an `i32` value. -/
def toU32 (v : Int) : Nat := (v % 4294967296).toNat

/-- Two's-complement `u64` bit pattern of an `i64` value. -/
def toU64 (v : Int) : Nat := (v % 18446744073709551616).toNat

/-- Big-endian byte serialization of a `u16`. -/
def encU16 (p : Nat) : List Nat := [p / 256, p % 256]

/-- Big-endian byte serialization of a `u32`. -/
def encU32 (p : Nat) : List Nat :=
  [p / 16777216, p / 65536 % 256, p / 256 % 256, p % 256]

/-- Big-endian byte serialization of a `u64`. -/
def encU64 (p : Nat) : List Nat :=
  [p / 72057594037927936, p / 281474976710656 % 256, p / 1099511627776 % 256,
   p / 4294967296 % 256, p / 16777216 % 256, p / 65536 % 256, p / 256 % 256, p % 256]

/-- A root-level encoded tag: type id byte, 2-byte big-endian name
length, name bytes, then the payload. -/
def encNamed (ty : Nat) (nm payload : List Nat) : List Nat :=
  ty :: nm.length / 256 :: nm.length % 256 :: (nm ++ payload)

theorem toI8_toU8 (v : Int) (h1 : -128 ≤ v) (h2 : v < 128) : toI8 (toU8 v) = v := by
  simp only [toI8, toU8]
  split <;> omega

theorem toI16_toU16 (v : Int) (h1 : -32768 ≤ v) (h2 : v < 32768) : toI16 (toU16 v) = v := by
  simp only [toI16, toU16]
  split <;> omega

theorem toI32_toU32 (v : Int) (h1 : -2147483648 ≤ v) (h2 : v < 2147483648) :
    toI32 (toU32 v) = v := by
  simp only [toI32, toU32]
  split <;> omega

theorem toI64_toU64 (v : Int) (h1 : -9223372036854775808 ≤ v)
    (h2 : v < 9223372036854775808) : toI64 (toU64 v) = v := by
  simp only [toI64, toU64]
  split <;> omega

theorem be16_enc (p : Nat) : be16 (p / 256) (p % 256) = p := by
  simp [be16]; omega

theorem be32_enc (p : Nat) (h : p < 4294967296) :
    be32 (p / 16777216) (p / 65536 % 256) (p / 256 % 256) (p % 256) = p := by
  simp [be32]; omega

theorem be64_enc (p : Nat) (h : p < 18446744073709551616) :
    be64 (p / 72057594037927936) (p / 281474976710656 % 256) (p / 1099511627776 % 256)
      (p / 4294967296 % 256) (p / 16777216 % 256) (p / 65536 % 256) (p / 256 % 256)
      (p % 256) = p := by
  simp [be64]; omega

theorem read_string_enc (nm t : List Nat) (hnm : isValidUtf8 nm = true)
    (_hlen : nm.length < 65536) :
    read_string (nm.length / 256 :: nm.length % 256 :: (nm ++ t)) = .ok (nm, t) := by
  simp [read_string, readU16, be16_enc, readExact, fromUtf8, hnm,
    List.take_left, List.drop_left, Bind.bind, Except.bind]

theorem Tag.parse_encNamed (fuel ty : Nat) (nm payload : List Nat)
    (hnm : isValidUtf8 nm = true) (hlen : nm.length < 65536) :
    Tag.parse fuel (encNamed ty nm payload) =
      Except.map (fun p => ((nm, p.1), p.2)) (parse_tag fuel payload (some ty)) := by
  cases h : parse_tag fuel payload (some ty) <;>
    simp [Tag.parse, encNamed, readU8, read_string_enc nm payload hnm hlen,
      Bind.bind, Except.bind, Except.map, h]

theorem parse_tag_byte (fuel b : Nat) (t : List Nat) :
    parse_tag (fuel + 1) (b :: t) (some 1) = .ok (.TagByte (toI8 b), t) := by
  simp [parse_tag, readI8, readU8, Bind.bind, Except.bind, Except.map]

theorem parse_tag_short (fuel a b : Nat) (t : List Nat) :
    parse_tag (fuel + 1) (a :: b :: t) (some 2) = .ok (.TagShort (toI16 (be16 a b)), t) := by
  simp [parse_tag, readI16, readU16, Bind.bind, Except.bind, Except.map]

theorem parse_tag_int (fuel a b c d : Nat) (t : List Nat) :
    parse_tag (fuel + 1) (a :: b :: c :: d :: t) (some 3) =
      .ok (.TagInt (toI32 (be32 a b c d)), t) := by
  simp [parse_tag, readI32, readU32, Bind.bind, Except.bind, Except.map]

theorem parse_tag_long (fuel a b c d e f g h : Nat) (t : List Nat) :
    parse_tag (fuel + 1) (a :: b :: c :: d :: e :: f :: g :: h :: t) (some 4) =
      .ok (.TagLong (toI64 (be64 a b c d e f g h)), t) := by
  simp [parse_tag, readI64, readU64, Bind.bind, Except.bind, Except.map]

theorem parse_tag_float (fuel a b c d : Nat) (t : List Nat) :
    parse_tag (fuel + 1) (a :: b :: c :: d :: t) (some 5) =
      .ok (.TagFloat (be32 a b c d), t) := by
  simp [parse_tag, readU32, Bind.bind, Except.bind]

theorem parse_tag_double (fuel a b c d e f g h : Nat) (t : List Nat) :
    parse_tag (fuel + 1) (a :: b :: c :: d :: e :: f :: g :: h :: t) (some 6) =
      .ok (.TagDouble (be64 a b c d e f g h), t) := by
  simp [parse_tag, readU64, Bind.bind, Except.bind]

theorem toU32_lt (v : Int) : toU32 v < 4294967296 := by
  simp [toU32]; omega

theorem toU64_lt (v : Int) : toU64 v < 18446744073709551616 := by
  simp [toU64]; omega

/--
C9: for every valid encoded scalar tag (type ids 1-6) under any valid
root name, root-decoding it and reading it back through the matching
typed accessor (`as_i8`, `as_i16`, `as_i32`, `as_i64`, `as_f32`,
`as_f64`) returns exactly the originally encoded value, the decoded tag
being the matching variant under the encoded name.  Float and double
values are quantified as raw IEEE bit patterns, which the decoder
transports losslessly.
-/
theorem scalar_decode_roundtrip (fuel : Nat) (nm : List Nat)
    (hnm : isValidUtf8 nm = true) (hlen : nm.length < 65536)
    (v1 v2 v3 v4 : Int) (f4 f8 : Nat)
    (h1 : -128 ≤ v1 ∧ v1 < 128)
    (h2 : -32768 ≤ v2 ∧ v2 < 32768)
    (h3 : -2147483648 ≤ v3 ∧ v3 < 2147483648)
    (h4 : -9223372036854775808 ≤ v4 ∧ v4 < 9223372036854775808)
    (hf4 : f4 < 4294967296) (hf8 : f8 < 18446744073709551616) :
    (Tag.parse (fuel + 1) (encNamed 1 nm [toU8 v1]) = .ok ((nm, .TagByte v1), [])
      ∧ Tag.as_i8 (.TagByte v1) = some v1)
    ∧ (Tag.parse (fuel + 1) (encNamed 2 nm (encU16 (toU16 v2))) = .ok ((nm, .TagShort v2), [])
      ∧ Tag.as_i16 (.TagShort v2) = some v2)
    ∧ (Tag.parse (fuel + 1) (encNamed 3 nm (encU32 (toU32 v3))) = .ok ((nm, .TagInt v3), [])
      ∧ Tag.as_i32 (.TagInt v3) = some v3)
    ∧ (Tag.parse (fuel + 1) (encNamed 4 nm (encU64 (toU64 v4))) = .ok ((nm, .TagLong v4), [])
      ∧ Tag.as_i64 (.TagLong v4) = some v4)
    ∧ (Tag.parse (fuel + 1) (encNamed 5 nm (encU32 f4)) = .ok ((nm, .TagFloat f4), [])
      ∧ Tag.as_f32 (.TagFloat f4) = some f4)
    ∧ (Tag.parse (fuel + 1) (encNamed 6 nm (encU64 f8)) = .ok ((nm, .TagDouble f8), [])
      ∧ Tag.as_f64 (.TagDouble f8) = some f8) := by
  refine ⟨⟨?_, rfl⟩, ⟨?_, rfl⟩, ⟨?_, rfl⟩, ⟨?_, rfl⟩, ⟨?_, rfl⟩, ⟨?_, rfl⟩⟩
  · rw [Tag.parse_encNamed _ _ _ _ hnm hlen, parse_tag_byte]
    simp [Except.map, toI8_toU8 v1 h1.1 h1.2]
  · rw [Tag.parse_encNamed _ _ _ _ hnm hlen,
      show encU16 (toU16 v2) = toU16 v2 / 256 :: toU16 v2 % 256 :: [] from rfl,
      parse_tag_short, be16_enc]
    simp [Except.map, toI16_toU16 v2 h2.1 h2.2]
  · rw [Tag.parse_encNamed _ _ _ _ hnm hlen,
      show encU32 (toU32 v3) = toU32 v3 / 16777216 :: toU32 v3 / 65536 % 256 ::
        toU32 v3 / 256 % 256 :: toU32 v3 % 256 :: [] from rfl,
      parse_tag_int, be32_enc _ (toU32_lt v3)]
    simp [Except.map, toI32_toU32 v3 h3.1 h3.2]
  · rw [Tag.parse_encNamed _ _ _ _ hnm hlen,
      show encU64 (toU64 v4) = toU64 v4 / 72057594037927936 ::
        toU64 v4 / 281474976710656 % 256 :: toU64 v4 / 1099511627776 % 256 ::
        toU64 v4 / 4294967296 % 256 :: toU64 v4 / 16777216 % 256 ::
        toU64 v4 / 65536 % 256 :: toU64 v4 / 256 % 256 :: toU64 v4 % 256 :: [] from rfl,
      parse_tag_long, be64_enc _ (toU64_lt v4)]
    simp [Except.map, toI64_toU64 v4 h4.1 h4.2]
  · rw [Tag.parse_encNamed _ _ _ _ hnm hlen,
      show encU32 f4 = f4 / 16777216 :: f4 / 65536 % 256 ::
        f4 / 256 % 256 :: f4 % 256 :: [] from rfl,
      parse_tag_float, be32_enc _ hf4]
    simp [Except.map]
  · rw [Tag.parse_encNamed _ _ _ _ hnm hlen,
      show encU64 f8 = f8 / 72057594037927936 :: f8 / 281474976710656 % 256 ::
        f8 / 1099511627776 % 256 :: f8 / 4294967296 % 256 :: f8 / 16777216 % 256 ::
        f8 / 65536 % 256 :: f8 / 256 % 256 :: f8 % 256 :: [] from rfl,
      parse_tag_double, be64_enc _ hf8]
    simp [Except.map]

/-- Witness for C9 at the spec's own example: type id 1, payload byte 69,
name "hello" (bytes 104, 101, 108, 108, 111). -/
theorem scalar_decode_roundtrip_witness :
    Tag.parse 3 (encNamed 1 [104, 101, 108, 108, 111] [toU8 69]) =
      .ok (([104, 101, 108, 108, 111], .TagByte 69), [])
    ∧ Tag.as_i8 (.TagByte 69) = some 69 :=
  (scalar_decode_roundtrip 2 [104, 101, 108, 108, 111] (by decide) (by decide)
    69 0 0 0 0 0 (by decide) (by decide) (by decide) (by decide)
    (by decide) (by decide)).1

/--
Counterexample to C3: the accessor layer signals a missing-key lookup, an
out-of-range index lookup, and a type-mismatched access all by the same
bare `none`; the failure carries no key name, no index, no type
information, and the three kinds are not distinguishable (the missing-key
result literally equals the bad-index result and the wrong-type lookup
result).  The error variants `InvalidKey`, `InvalidIndex` and
`UnexpectedType` declared in `error.rs` are never produced.
-/
theorem accessor_failures_carry_nothing_concrete :
    Tag.key (.TagCompound []) [97] = none
    ∧ Tag.index (.TagList [.TagByte 1]) 3 = none
    ∧ Tag.as_i32 (.TagString [99, 97, 116]) = none
    ∧ Tag.key (.TagCompound []) [97] = Tag.index (.TagList [.TagByte 1]) 3
    ∧ Tag.key (.TagCompound []) [97] = Tag.key (.TagString [99, 97, 116]) [98] :=
  ⟨rfl, rfl, rfl, rfl, rfl⟩

/--
C3 as amended: in the accessor layer, a key lookup on a Compound lacking
the key, an index lookup past the end of a List, and a type-mismatched
access all fail with the same valueless `none`, carrying neither the key
name nor the index nor any type information, so the three failure kinds
are not distinguishable by the caller.
-/
theorem accessor_failures_all_none (m : List (List Nat × Tag)) (k : List Nat)
    (l : List Tag) (i : Nat) (t : Tag) (s : List Nat)
    (hm : hmGet m k = none) (hi : l.length ≤ i) (ht : t.as_map = none) :
    Tag.key (.TagCompound m) k = none
    ∧ Tag.index (.TagList l) i = none
    ∧ Tag.key t k = none
    ∧ Tag.as_i32 (.TagString s) = none := by
  refine ⟨?_, ?_, ?_, rfl⟩
  · simp [Tag.key, Tag.as_map, hm]
  · simp [Tag.index, Tag.as_list, List.get?_eq_none, hi]
  · simp [Tag.key, ht]

/-- Witness for C3 as amended at concrete values. -/
theorem accessor_failures_all_none_witness :
    Tag.key (.TagCompound [([98], Tag.TagByte 1)]) [97] = none
    ∧ Tag.index (.TagList [.TagByte 1, .TagByte 2]) 2 = none
    ∧ Tag.key (.TagString [5]) [97] = none
    ∧ Tag.as_i32 (.TagString [5]) = none :=
  accessor_failures_all_none [([98], Tag.TagByte 1)] [97] [.TagByte 1, .TagByte 2] 2
    (.TagString [5]) [5] (by rfl) (by decide) (by rfl)
theorem readU32s_zeros (n : Nat) :
    ∀ (k : Nat) (t : List Nat),
      readU32s n (List.replicate (4 * n + k) 0 ++ t) =
        .ok (List.replicate n 0, List.replicate k 0 ++ t) := by
  induction n with
  | zero =>
    intro k t
    rw [show 4 * 0 + k = k from by omega]
    simp [readU32s]
  | succ n ih =>
    intro k t
    rw [show 4 * (n + 1) + k = (4 * n + k) + 4 from by ring]
    have hrep : List.replicate ((4 * n + k) + 4) (0 : Nat) ++ t =
        0 :: 0 :: 0 :: 0 :: (List.replicate (4 * n + k) 0 ++ t) := rfl
    rw [hrep]
    simp [readU32s, readU32, Bind.bind, Except.bind, be32, ih k t, List.replicate_succ]

theorem readU32s_succ (n : Nat) (r : List Nat) :
    readU32s (n + 1) r =
      (do
        let (v, r1) ← readU32 r
        let (vs, r2) ← readU32s n r1
        .ok (v :: vs, r2)) := by
  simp [readU32s]

theorem readU32s_1024_single (a b c d : Nat) (frame : List Nat) :
    readU32s 1024 (a :: b :: c :: d :: (List.replicate 8188 0 ++ frame)) =
      .ok (be32 a b c d :: List.replicate 1023 0, List.replicate 4096 0 ++ frame) := by
  rw [show (1024 : Nat) = 1023 + 1 from by norm_num, readU32s_succ]
  have h2 : readU32s 1023 (List.replicate 8188 (0 : Nat) ++ frame) =
      .ok (List.replicate 1023 0, List.replicate 4096 0 ++ frame) := by
    have h := readU32s_zeros 1023 4096 frame
    rw [show 4 * 1023 + 4096 = 8188 from by norm_num] at h
    exact h
  simp [-List.reduceReplicate, readU32, Bind.bind, Except.bind, h2]

theorem readU32s_1024_zeros (frame : List Nat) :
    readU32s 1024 (List.replicate 4096 (0 : Nat) ++ frame) =
      .ok (List.replicate 1024 0, frame) := by
  have h := readU32s_zeros 1024 0 frame
  rw [show 4 * 1024 + 0 = 4096 from by norm_num] at h
  rw [h]
  rfl

def regionAllZero : RegionFile :=
  { offsets := List.replicate 1024 0
    timestamps := List.replicate 1024 0
    chunk_size := List.replicate 1024 0
    cursor := List.replicate 8192 0 }

theorem regionNew_allZero : RegionFile.new (List.replicate 8192 0) = .ok regionAllZero := by
  have e1 : readU32s 1024 (List.replicate 8192 (0 : Nat)) =
      .ok (List.replicate 1024 0, List.replicate 4096 0) := by
    have h := readU32s_zeros 1024 4096 ([] : List Nat)
    rw [List.append_nil, List.append_nil] at h
    rw [show 4 * 1024 + 4096 = 8192 from by norm_num] at h
    exact h
  have e2 : readU32s 1024 (List.replicate 4096 (0 : Nat)) =
      .ok (List.replicate 1024 0, List.replicate 0 0) := by
    have h := readU32s_zeros 1024 0 ([] : List Nat)
    rw [List.append_nil, List.append_nil] at h
    rw [show 4 * 1024 + 0 = 4096 from by norm_num] at h
    exact h
  simp only [RegionFile.new, Bind.bind, Except.bind, e1, e2]
  simp [-List.reduceReplicate, regionAllZero, List.map_replicate]

theorem regionNew_single_slot (a b c d : Nat) (frame : List Nat) :
    RegionFile.new (a :: b :: c :: d :: (List.replicate 8188 0 ++ frame)) =
      .ok { offsets := (be32 a b c d / 256 * 4096 % 4294967296) :: List.replicate 1023 0
            timestamps := List.replicate 1024 0
            chunk_size := (be32 a b c d % 256) :: List.replicate 1023 0
            cursor := a :: b :: c :: d :: (List.replicate 8188 0 ++ frame) } := by
  simp only [RegionFile.new, Bind.bind, Except.bind, readU32s_1024_single,
    readU32s_1024_zeros]
  simp [-List.reduceReplicate, List.map_replicate]

theorem drop_four (a b c d : Nat) (l : List Nat) (n : Nat) :
    (a :: b :: c :: d :: l).drop (n + 4) = l.drop n := rfl

theorem drop8192_single_slot (a b c d : Nat) (frame : List Nat) :
    (a :: b :: c :: d :: (List.replicate 8188 0 ++ frame)).drop 8192 = frame := by
  rw [show (8192 : Nat) = 8188 + 4 from by norm_num, drop_four]
  have h := List.drop_left (List.replicate 8188 (0 : Nat)) frame
  rwa [List.length_replicate] at h

/-- Decompressor stub used where a run never reaches decompression. -/
def zlibNone : List Nat → Option (List Nat) := fun _ => none

/--
Counterexample to C1: on the region file successfully constructed from an
all-zero 8192-byte header, the out-of-range coordinates x = 32 (and
z = 32) make `chunk_exists`, `get_chunk_timestamp` and `load_chunk` abort
through the `assert!(x < 32)` / `assert!(z < 32)` panics instead of
returning a fallible bounds-failure result.
-/
theorem bounds_assert_aborts_concrete :
    RegionFile.new (List.replicate 8192 0) = .ok regionAllZero
    ∧ regionAllZero.chunk_exists 32 0 = .panic
    ∧ regionAllZero.get_chunk_timestamp 0 32 = .panic
    ∧ RegionFile.load_chunk zlibNone 9 regionAllZero 32 32 = .panic :=
  ⟨regionNew_allZero, rfl, rfl, rfl⟩

/--
C1 as amended: for every region container and every coordinate pair with
x ≥ 32 or z ≥ 32, each of `chunk_exists`, `get_chunk_timestamp` and
`load_chunk` aborts the process through a failed `assert!` (a panic), not
an ordinary fallible bounds-failure result.
-/
theorem out_of_range_coords_panic (rf : RegionFile) (x z : Nat)
    (zlib : List Nat → Option (List Nat)) (fuel : Nat) (h : 32 ≤ x ∨ 32 ≤ z) :
    rf.chunk_exists x z = .panic
    ∧ rf.get_chunk_timestamp x z = .panic
    ∧ RegionFile.load_chunk zlib fuel rf x z = .panic := by
  have hx : ¬ (x < 32) ∨ ¬ (z < 32) := by omega
  refine ⟨?_, ?_, ?_⟩
  · rcases hx with h' | h' <;> simp [RegionFile.chunk_exists, h']
  · rcases hx with h' | h' <;> simp [RegionFile.get_chunk_timestamp, h']
  · have hoff : rf.get_chunk_offset x z = .panic := by
      rcases hx with h' | h' <;> simp [RegionFile.get_chunk_offset, h']
    simp [RegionFile.load_chunk, hoff]

/-- Witness for C1 as amended at x = 200, z = 0. -/
theorem out_of_range_coords_panic_witness :
    regionAllZero.chunk_exists 200 0 = .panic
    ∧ regionAllZero.get_chunk_timestamp 200 0 = .panic
    ∧ RegionFile.load_chunk zlibNone 5 regionAllZero 200 0 = .panic :=
  out_of_range_coords_panic regionAllZero 200 0 zlibNone 5 (by omega)
def u32At (src : List Nat) (i : Nat) : Nat :=
  match src.drop (4 * i) with
  | a :: b :: c :: d :: _ => be32 a b c d
  | _ => 0

theorem readU32_ok_inv {r : List Nat} {v : Nat} {t : List Nat}
    (h : readU32 r = .ok (v, t)) :
    ∃ a b c d, r = a :: b :: c :: d :: t ∧ v = be32 a b c d := by
  match r with
  | [] => simp [readU32] at h
  | [a] => simp [readU32] at h
  | [a, b] => simp [readU32] at h
  | [a, b, c] => simp [readU32] at h
  | a :: b :: c :: d :: t' =>
    simp [readU32] at h
    exact ⟨a, b, c, d, by simp [h.2, h.1]⟩

theorem readU32s_ok {n : Nat} :
    ∀ {r vs rest : List Nat}, readU32s n r = .ok (vs, rest) →
      vs.length = n ∧ ∀ i, i < n → vs.get? i = some (u32At r i) := by
  induction n with
  | zero =>
    intro r vs rest h
    simp [readU32s] at h
    simp [h.1]
  | succ n ih =>
    intro r vs rest h
    rw [readU32s_succ] at h
    simp only [Bind.bind] at h
    cases h1 : readU32 r with
    | error e => simp [h1, Except.bind] at h
    | ok p =>
      obtain ⟨v, r1⟩ := p
      cases h2 : readU32s n r1 with
      | error e => simp [h1, h2, Except.bind] at h
      | ok q =>
        obtain ⟨vs', rest'⟩ := q
        simp [h1, h2, Except.bind] at h
        obtain ⟨hv, -⟩ := h
        subst hv
        obtain ⟨hl, hg⟩ := ih h2
        obtain ⟨a, b, c, d, hr, hvv⟩ := readU32_ok_inv h1
        subst hr
        refine ⟨by simp [hl], ?_⟩
        intro i hi
        match i with
        | 0 => simp [u32At, hvv, be32]
        | i + 1 =>
          have : u32At (a :: b :: c :: d :: r1) (i + 1) = u32At r1 i := by
            have hd : (a :: b :: c :: d :: r1).drop (4 * (i + 1)) = r1.drop (4 * i) := by
              rw [show 4 * (i + 1) = 4 * i + 4 from by ring, drop_four]
            simp [u32At, hd]
          simp only [List.get?]
          rw [this]
          exact hg i (by omega)

theorem regionNew_offsets {src : List Nat} {rf : RegionFile}
    (h : RegionFile.new src = .ok rf) :
    rf.cursor = src
    ∧ ∀ i, i < 1024 →
        rf.offsets.get? i = some (u32At src i / 256 * 4096 % 4294967296) := by
  simp only [RegionFile.new, Bind.bind] at h
  cases h1 : readU32s 1024 src with
  | error e => simp [h1, Except.bind] at h
  | ok p =>
    obtain ⟨words, r1⟩ := p
    cases h2 : readU32s 1024 r1 with
    | error e => simp [h1, h2, Except.bind] at h
    | ok q =>
      obtain ⟨tss, r2⟩ := q
      simp [h1, h2, Except.bind] at h
      obtain ⟨hw, hg⟩ := readU32s_ok h1
      refine ⟨by rw [← h], ?_⟩
      intro i hi
      rw [← h]
      simp only [List.getElem?_map]
      have hgi : words[i]? = some (u32At src i) := by
        rw [← List.get?_eq_getElem?]
        exact hg i hi
      simp [hgi]

/--
C4 as amended: for every successfully constructed region container and
in-range (x, z), `chunk_exists` returns true iff the stored byte offset —
the header word's upper 24 bits multiplied by 4096 in wrapping `u32`
arithmetic — is nonzero; the multiplication by 4096 can wrap to zero for
a nonzero 24-bit word, so this is not equivalent to the word itself being
nonzero.
-/
theorem chunk_exists_iff_wrapped_byte_offset_nonzero (src : List Nat)
    (rf : RegionFile) (x z : Nat) (h : RegionFile.new src = .ok rf)
    (hx : x < 32) (hz : z < 32) :
    rf.chunk_exists x z =
      .ok (decide (0 < u32At src (x + z * 32) / 256 * 4096 % 4294967296)) := by
  obtain ⟨-, hoff⟩ := regionNew_offsets h
  have hidx : x % 32 + z % 32 * 32 = x + z * 32 := by omega
  have hv := hoff (x + z * 32) (by omega)
  rw [List.get?_eq_getElem?] at hv
  simp [RegionFile.chunk_exists, hx, hz, hidx, hv]

/-- Witness for C4 as amended at slot (13, 23) of the all-zero region. -/
theorem chunk_exists_iff_wrapped_byte_offset_nonzero_witness :
    regionAllZero.chunk_exists 13 23 =
      .ok (decide (0 < u32At (List.replicate 8192 0) (13 + 23 * 32) / 256 * 4096
        % 4294967296)) :=
  chunk_exists_iff_wrapped_byte_offset_nonzero (List.replicate 8192 0) regionAllZero
    13 23 regionNew_allZero (by decide) (by decide)

/-- Region source whose slot-0 header word is 0x10000000: 24-bit sector
offset 0x100000, sector count 0. -/
def srcBigOffset : List Nat := 16 :: 0 :: 0 :: 0 :: (List.replicate 8188 0 ++ [])

/-- The container `RegionFile::new` builds from `srcBigOffset`: the
stored offset wraps to 0 because 0x100000 * 4096 = 2^32. -/
def regionBigOffset : RegionFile :=
  { offsets := 0 :: List.replicate 1023 0
    timestamps := List.replicate 1024 0
    chunk_size := 0 :: List.replicate 1023 0
    cursor := srcBigOffset }

/--
Counterexample to C4 as stated: the container built from a header whose
slot-0 offset word has the nonzero 24-bit value 0x100000 (1048576) still
reports `chunk_exists(0, 0) = false`, because the stored byte offset
1048576 * 4096 wraps to 0 modulo 2^32.
-/
theorem chunk_exists_false_on_nonzero_word_concrete :
    RegionFile.new srcBigOffset = .ok regionBigOffset
    ∧ u32At srcBigOffset 0 / 256 = 1048576
    ∧ regionBigOffset.chunk_exists 0 0 = .ok false := by
  refine ⟨?_, by rfl, by rfl⟩
  have h := regionNew_single_slot 16 0 0 0 []
  simpa [-List.reduceReplicate, srcBigOffset, regionBigOffset, be32] using h

/--
C5: with the slot's stored offset pointing at a frame with 4-byte length
L and compression-type byte ct, `load_chunk` fails with
`UnsupportedCompressionFormat ct` whenever ct is not 2 (first conjunct,
before any payload is read), and for ct = 2 reads exactly L - 1 payload
bytes, decompresses them, root-decodes the result, and returns only the
tree, discarding the root name (second conjunct).
-/
theorem load_chunk_compression_dispatch
    (zlib : List Nat → Option (List Nat)) (fuel : Nat) (rf : RegionFile)
    (x z off L ct : Nat) (t1 t2 : List Nat)
    (hx : x < 32) (hz : z < 32)
    (hoff : rf.offsets.get? (x % 32 + z % 32 * 32) = some off)
    (h1 : readU32 (rf.cursor.drop off) = .ok (L, t1))
    (h2 : readU8 t1 = .ok (ct, t2)) :
    (ct ≠ 2 →
      RegionFile.load_chunk zlib fuel rf x z = .err (.unsupportedCompressionFormat ct))
    ∧ (∀ comp t3 plain nm tag rest,
        ct = 2 → 1 ≤ L →
        readExact (L - 1) t2 = .ok (comp, t3) →
        zlib comp = some plain →
        Tag.parse fuel plain = .ok ((nm, tag), rest) →
        RegionFile.load_chunk zlib fuel rf x z = .ok tag) := by
  have hgo : rf.get_chunk_offset x z = .ok off := by
    rw [List.get?_eq_getElem?] at hoff
    simp [RegionFile.get_chunk_offset, hx, hz, hoff]
  constructor
  · intro hct
    simp [RegionFile.load_chunk, hgo, h1, h2, hct]
  · intro comp t3 plain nm tag rest hct hL h3 h4 h5
    subst hct
    have hL0 : ¬ L = 0 := by omega
    simp [RegionFile.load_chunk, hgo, h1, h2, hL0, h3, h4, h5]

/-- Region source whose slot-0 chunk frame is: length 2, compression
code 5, one payload byte. -/
def srcBadCompression : List Nat :=
  0 :: 0 :: 2 :: 0 :: (List.replicate 8188 0 ++ [0, 0, 0, 2, 5, 99])

def regionBadCompression : RegionFile :=
  { offsets := 8192 :: List.replicate 1023 0
    timestamps := List.replicate 1024 0
    chunk_size := 0 :: List.replicate 1023 0
    cursor := srcBadCompression }

/-- Region source whose slot-0 chunk frame is: length 2, compression
code 2, one compressed byte 66. -/
def srcGoodChunk : List Nat :=
  0 :: 0 :: 2 :: 0 :: (List.replicate 8188 0 ++ [0, 0, 0, 2, 2, 66])

def regionGoodChunk : RegionFile :=
  { offsets := 8192 :: List.replicate 1023 0
    timestamps := List.replicate 1024 0
    chunk_size := 0 :: List.replicate 1023 0
    cursor := srcGoodChunk }

/-- Decompressor mapping the compressed byte 66 to a valid encoded tree
(root TagByte 7 under the empty name). -/
def zlibTest : List Nat → Option (List Nat) :=
  fun c => if c = [66] then some [1, 0, 0, 7] else none

/-- Witness for C5: compression code 5 is rejected carrying the value 5;
a code-2 frame decompressing to a valid tree returns its tag. -/
theorem load_chunk_compression_dispatch_witness :
    RegionFile.load_chunk zlibTest 3 regionBadCompression 0 0 =
      .err (.unsupportedCompressionFormat 5)
    ∧ RegionFile.load_chunk zlibTest 3 regionGoodChunk 0 0 = .ok (.TagByte 7) := by
  constructor
  · refine (load_chunk_compression_dispatch zlibTest 3 regionBadCompression 0 0 8192 2 5
      [5, 99] [99] (by decide) (by decide) (by rfl) ?_ (by rfl)).1 (by decide)
    show readU32 ((0 :: 0 :: 2 :: 0 ::
      (List.replicate 8188 0 ++ [0, 0, 0, 2, 5, 99])).drop 8192) = .ok (2, [5, 99])
    rw [drop8192_single_slot]
    rfl
  · refine (load_chunk_compression_dispatch zlibTest 3 regionGoodChunk 0 0 8192 2 2
      [2, 66] [66] (by decide) (by decide) (by rfl) ?_ (by rfl)).2
      [66] [] [1, 0, 0, 7] [] (.TagByte 7) [] rfl (by decide) (by rfl) (by rfl) (by rfl)
    show readU32 ((0 :: 0 :: 2 :: 0 ::
      (List.replicate 8188 0 ++ [0, 0, 0, 2, 2, 66])).drop 8192) = .ok (2, [2, 66])
    rw [drop8192_single_slot]
    rfl

/-- Region source whose slot-0 chunk frame is: length 2, compression
code 2, one compressed byte 171, which `zlibBadPayload` decompresses to
the malformed stream `13, 0, 0` (unrecognized root type id 13). -/
def srcBadPayload : List Nat :=
  0 :: 0 :: 2 :: 0 :: (List.replicate 8188 0 ++ [0, 0, 0, 2, 2, 171])

def regionBadPayload : RegionFile :=
  { offsets := 8192 :: List.replicate 1023 0
    timestamps := List.replicate 1024 0
    chunk_size := 0 :: List.replicate 1023 0
    cursor := srcBadPayload }

/-- Decompressor mapping the compressed byte 171 to the malformed
decoder input `13, 0, 0`. -/
def zlibBadPayload : List Nat → Option (List Nat) :=
  fun c => if c = [171] then some [13, 0, 0] else none

/--
C2 (code bug): on a well-formed region frame whose decompressed bytes
fail the nested tree decode with `UnexpectedTag 13` (second conjunct),
`load_chunk` panics through the `.unwrap()` on `Tag::parse` instead of
returning the decode error to its caller (third conjunct); the container
itself is reachable via `RegionFile::new` (first conjunct).
-/
theorem load_chunk_panics_on_nested_decode_failure :
    RegionFile.new srcBadPayload = .ok regionBadPayload
    ∧ Tag.parse 9 [13, 0, 0] = .error (.unexpectedTag 13)
    ∧ RegionFile.load_chunk zlibBadPayload 9 regionBadPayload 0 0 = .panic := by
  refine ⟨?_, by rfl, ?_⟩
  · have h := regionNew_single_slot 0 0 2 0 [0, 0, 0, 2, 2, 171]
    simpa [-List.reduceReplicate, srcBadPayload, regionBadPayload, be32] using h
  · have hgo : regionBadPayload.get_chunk_offset 0 0 = .ok 8192 := by rfl
    have hd : regionBadPayload.cursor.drop 8192 = [0, 0, 0, 2, 2, 171] := by
      show (0 :: 0 :: 2 :: 0 ::
        (List.replicate 8188 0 ++ [0, 0, 0, 2, 2, 171])).drop 8192 = _
      exact drop8192_single_slot 0 0 2 0 [0, 0, 0, 2, 2, 171]
    simp only [RegionFile.load_chunk, hgo, hd]
    rfl

/--
C10: for any in-range (x, z) whose slot points at a frame whose 4-byte
length prefix is 0 with compression-type byte 2, `load_chunk` aborts
(`vec![0; total_len - 1]` underflows the unsigned subtraction: an
overflow panic in debug builds, a wrapped 2^64 - 1 allocation abort in
release builds), so `load_chunk` is not total over byte sources.
-/
theorem load_chunk_zero_length_aborts
    (zlib : List Nat → Option (List Nat)) (fuel : Nat) (rf : RegionFile)
    (x z off : Nat) (t1 t2 : List Nat)
    (hx : x < 32) (hz : z < 32)
    (hoff : rf.offsets.get? (x % 32 + z % 32 * 32) = some off)
    (h1 : readU32 (rf.cursor.drop off) = .ok (0, t1))
    (h2 : readU8 t1 = .ok (2, t2)) :
    RegionFile.load_chunk zlib fuel rf x z = .panic := by
  have hgo : rf.get_chunk_offset x z = .ok off := by
    rw [List.get?_eq_getElem?] at hoff
    simp [RegionFile.get_chunk_offset, hx, hz, hoff]
  simp [RegionFile.load_chunk, hgo, h1, h2]

/-- Region source whose slot-0 chunk frame has length prefix 0 and
compression code 2. -/
def srcZeroLen : List Nat :=
  0 :: 0 :: 2 :: 0 :: (List.replicate 8188 0 ++ [0, 0, 0, 0, 2])

def regionZeroLen : RegionFile :=
  { offsets := 8192 :: List.replicate 1023 0
    timestamps := List.replicate 1024 0
    chunk_size := 0 :: List.replicate 1023 0
    cursor := srcZeroLen }

/-- Witness for C10: the zero-length frame aborts a reachable container. -/
theorem load_chunk_zero_length_aborts_witness :
    RegionFile.new srcZeroLen = .ok regionZeroLen
    ∧ RegionFile.load_chunk zlibTest 5 regionZeroLen 0 0 = .panic := by
  constructor
  · have h := regionNew_single_slot 0 0 2 0 [0, 0, 0, 0, 2]
    simpa [-List.reduceReplicate, srcZeroLen, regionZeroLen, be32] using h
  · refine load_chunk_zero_length_aborts zlibTest 5 regionZeroLen 0 0 8192 [2] []
      (by decide) (by decide) (by rfl) ?_ (by rfl)
    show readU32 ((0 :: 0 :: 2 :: 0 ::
      (List.replicate 8188 0 ++ [0, 0, 0, 0, 2])).drop 8192) = .ok (0, [2])
    rw [drop8192_single_slot]
    rfl
